import Mathlib

/-!
Verification of the recipient-loading and mail-dispatch pipeline of the
mass_email_sender repository (src/utils.py), via a shallow embedding.

Conventions of the embedding:
* Python strings are Lean `String`s; a spreadsheet cell is `Option String`
  (`none` models a polars null).
* A readable tabular file is `Except.ok (df : Table)`; a file whose read or
  parse fails with message `m` is `Except.error m` (the message of the
  underlying exception, as `str(e)` would produce).
* Python exceptions are modelled by `Except String`: a raised exception of
  message `m` becomes `.error m`.
* Network effects (the SMTP session, the SES client, the outcome of each
  per-recipient submission) are modelled by an environment record carrying
  the result of each external call: `none` means the call succeeds, `some m`
  means it raises an exception whose message is `m`.
-/

namespace MassEmail

/-- A recipient record, as produced by `load_csv` in src/utils.py
(`{"email": ..., "first_name": ..., "last_name": ...}`). -/
structure Recipient where
  email : String
  first_name : String
  last_name : String
deriving DecidableEq, Repr

/-- The tabular data of a parsed CSV file: the header column names and the
rows, each row holding one (possibly null) cell per column. -/
structure Table where
  columns : List String
  rows : List (List (Option String))
deriving DecidableEq, Repr

/-- `startsWithChars pre l` is true iff `pre` is a prefix of `l`
(character-by-character comparison). -/
def startsWithChars : List Char → List Char → Bool
  | [], _ => true
  | _ :: _, [] => false
  | a :: xs, b :: ys => a == b && startsWithChars xs ys

/-- `hasSubstr needle hay` is true iff `needle` occurs contiguously inside
`hay`; it models Python's `needle in hay` on strings. -/
def hasSubstr (needle : List Char) : List Char → Bool
  | [] => startsWithChars needle []
  | c :: cs => startsWithChars needle (c :: cs) || hasSubstr needle cs

/-- Python's `needle in hay` for strings. -/
def strContains (hay needle : String) : Bool :=
  hasSubstr needle.data hay.data

/-- Python's `str(x)` applied to a cell: a null cell stringifies to the
literal text "None"; a string cell stringifies to itself. -/
def pyStr : Option String → String
  | none => "None"
  | some s => s

/-- The characters Python's `str.strip()` removes (the ASCII whitespace
set: space, tab, newline, carriage return, vertical tab, form feed). -/
def isPySpace (c : Char) : Bool :=
  c == ' ' || c == '\t' || c == '\n' || c == '\r' || c == '\x0b' || c == '\x0c'

/-- Python's `str.strip()`: drop leading and trailing whitespace. -/
def pyStrip (s : String) : String :=
  ⟨((s.data.dropWhile isPySpace).reverse.dropWhile isPySpace).reverse⟩

/-- Characters allowed in the local part of the e-mail regex of
`is_valid_email`: the class `[a-zA-Z0-9._%+-]`. -/
def isLocalChar (c : Char) : Bool :=
  c.isAlpha || c.isDigit || c == '.' || c == '_' || c == '%' || c == '+' || c == '-'

/-- Characters allowed in the domain part: the class `[a-zA-Z0-9.-]`. -/
def isDomainChar (c : Char) : Bool :=
  c.isAlpha || c.isDigit || c == '.' || c == '-'

/-- All ways of splitting a list into a prefix and the matching suffix. -/
def listSplits (l : List Char) : List (List Char × List Char) :=
  (List.range (l.length + 1)).map (fun i => (l.take i, l.drop i))

/-- The tail of the regex: `[a-zA-Z]{2,}` anchored at the end. -/
def tldMatch (t : List Char) : Bool :=
  decide (2 ≤ t.length) && t.all Char.isAlpha

/-- The part of the regex after the `@`: `[a-zA-Z0-9.-]+\.[a-zA-Z]{2,}`
anchored at the end.  A backtracking engine matches iff some split into a
nonempty run of domain characters, a literal dot, and a 2+-letter tail
exists. -/
def domainMatch (r : List Char) : Bool :=
  (listSplits r).any (fun p =>
    !p.1.isEmpty && p.1.all isDomainChar &&
      (match p.2 with
        | '.' :: t => tldMatch t
        | _ => false))

/-- The whole regex `^[a-zA-Z0-9._%+-]+@[a-zA-Z0-9.-]+\.[a-zA-Z]{2,}$`
against the full character list (neither class contains `@`, so a match
fixes the split at an `@`). -/
def emailCore (s : List Char) : Bool :=
  (listSplits s).any (fun p =>
    !p.1.isEmpty && p.1.all isLocalChar &&
      (match p.2 with
        | '@' :: r => domainMatch r
        | _ => false))

/-- `is_valid_email` from src/utils.py: `re.match(pattern, email)` with the
pattern above.  Python's `$` also matches just before a single trailing
newline, so a string ending in `'\n'` is accepted when the rest matches. -/
def is_valid_email (email : String) : Bool :=
  emailCore email.data ||
    (match email.data.getLast? with
      | some c => c == '\n' && emailCore email.data.dropLast
      | none => false)

/-- Python's `str.lower()` (on the ASCII column names the loader sees). -/
def pyLower (s : String) : String := ⟨s.data.map Char.toLower⟩

/-- The e-mail column condition of the resolution loop in `load_csv`:
`"email" in col_lower or col_lower == "e-mail"`. -/
def selEmail (col : String) : Bool :=
  strContains (pyLower col) "email" || pyLower col == "e-mail"

/-- The raw first-name condition:
`"first" in col_lower and "name" in col_lower or col_lower == "firstname"`. -/
def selFirstRaw (col : String) : Bool :=
  (strContains (pyLower col) "first" && strContains (pyLower col) "name")
    || pyLower col == "firstname"

/-- The raw last-name condition:
`"last" in col_lower and "name" in col_lower or col_lower == "lastname"`. -/
def selLastRaw (col : String) : Bool :=
  (strContains (pyLower col) "last" && strContains (pyLower col) "name")
    || pyLower col == "lastname"

/-- One step of the column-resolution `for` loop of `load_csv`: the
`if`/`elif` chain possibly overwrites one of the three role columns with
the current column.  There is no `break` and no none-check, so a later
qualifying column overwrites an earlier one. -/
def roleStep (acc : Option String × Option String × Option String)
    (col : String) : Option String × Option String × Option String :=
  if selEmail col then (some col, acc.2.1, acc.2.2)
  else if selFirstRaw col then (acc.1, some col, acc.2.2)
  else if selLastRaw col then (acc.1, acc.2.1, some col)
  else acc

/-- The whole column-resolution loop of `load_csv`: fold `roleStep` over the
header, starting from `(None, None, None)`. -/
def resolveCols (cols : List String) :
    Option String × Option String × Option String :=
  cols.foldl roleStep (none, none, none)

/-- The `missing` list built by `load_csv` when some role column was not
found (in the order email, first_name, last_name). -/
def missingRoles (ec fc lc : Option String) : List String :=
  (if ec.isNone then ["email"] else [])
    ++ (if fc.isNone then ["first_name"] else [])
    ++ (if lc.isNone then ["last_name"] else [])

/-- `row[name]` for a named polars row: the cell of the first column called
`name` (polars column names are unique, so the first is the only one). -/
def getCell : List String → List (Option String) → String → Option (Option String)
  | [], _, _ => none
  | _ :: _, [], _ => none
  | c :: cs, v :: vs, name => if c == name then some v else getCell cs vs name

/-- The cell value `row[name]`; a lookup that falls off the row behaves as a
null cell (it cannot happen for a well-formed polars frame). -/
def cellVal (cols : List String) (row : List (Option String)) (name : String) :
    Option String :=
  (getCell cols row name).getD none

/-- The per-row conversion of `load_csv`: stringify and strip the three role
cells, keep the row iff the email is nonempty and matches the regex. -/
def convRow (cols : List String) (e f l : String) (row : List (Option String)) :
    Option Recipient :=
  let em := pyStrip (pyStr (cellVal cols row e))
  let fn := pyStrip (pyStr (cellVal cols row f))
  let ln := pyStrip (pyStr (cellVal cols row l))
  if (em != "") && is_valid_email em then some ⟨em, fn, ln⟩ else none

/-- The body of the row loop of `load_csv`: append the converted row to the
accumulated list when it is kept, else leave the list unchanged. -/
def loadStep (cols : List String) (e f l : String) (acc : List Recipient)
    (row : List (Option String)) : List Recipient :=
  match convRow cols e f l row with
  | some r => acc ++ [r]
  | none => acc

/-- The row loop of `load_csv`: append each kept recipient to the
accumulating list, in row order. -/
def loadRows (cols : List String) (e f l : String)
    (rows : List (List (Option String))) : List Recipient :=
  rows.foldl (loadStep cols e f l) []

/-- `load_csv` from src/utils.py.  The input is the result of
`pl.read_csv`: `.error cause` if reading/parsing raised an exception with
message `cause`, otherwise `.ok df`.  Everything, including the
missing-column `ValueError`, is wrapped by the outer
`except Exception as e: raise Exception(f"Failed to load CSV: {str(e)}")`. -/
def load_csv (input : Except String Table) : Except String (List Recipient) :=
  match input with
  | .error cause => .error ("Failed to load CSV: " ++ cause)
  | .ok df =>
    match resolveCols df.columns with
    | (some e, some f, some l) => .ok (loadRows df.columns e f l df.rows)
    | (ec, fc, lc) =>
      .error ("Failed to load CSV: Missing required columns: "
        ++ String.intercalate ", " (missingRoles ec fc lc)
        ++ "\nAvailable columns: " ++ String.intercalate ", " df.columns)

/-- `stripPre pre s` returns `some rest` iff `s = pre ++ rest`, else `none`. -/
def stripPre : List Char → List Char → Option (List Char)
  | [], s => some s
  | _ :: _, [] => none
  | a :: xs, b :: ys => if a == b then stripPre xs ys else none

/-- Fuel-indexed engine for Python's `str.replace(old, new)` with nonempty
`old`: scan left to right; at a match emit `new` and continue after the
matched text (the emitted `new` is not rescanned); otherwise copy one
character.  Each step consumes at least one character and one unit of fuel,
so fuel `s.length` always suffices. -/
def replaceFuel (old new : List Char) : Nat → List Char → List Char
  | 0, s => s
  | _ + 1, [] => []
  | fuel + 1, c :: cs =>
    if old.isEmpty then c :: replaceFuel old new fuel cs
    else
      match stripPre old (c :: cs) with
      | some rest => new ++ replaceFuel old new fuel rest
      | none => c :: replaceFuel old new fuel cs

/-- Python's `s.replace(old, new)` on character lists (for nonempty `old`,
the only way src/utils.py uses it). -/
def replaceChars (old new s : List Char) : List Char :=
  replaceFuel old new s.length s

/-- Python's `s.replace(old, new)` on strings. -/
def pyReplace (s old new : String) : String :=
  ⟨replaceChars old.data new.data s.data⟩

/-- The opening brace character. -/
def lbrace : Char := '\x7b'

/-- The closing brace character. -/
def rbrace : Char := '\x7d'

/-- The three placeholder names the renderer recognizes. -/
inductive Tok
  | te
  | tf
  | tl
deriving DecidableEq, Repr

/-- The interior (between the braces) of each recognized token. -/
def tokInt : Tok → List Char
  | .te => "email".data
  | .tf => "first_name".data
  | .tl => "last_name".data

/-- The full literal token: interior wrapped in braces, so
`tokChars .te` is the character list of "\x7bemail\x7d", and likewise for
"\x7bfirst_name\x7d" and "\x7blast_name\x7d". -/
def tokChars (t : Tok) : List Char := lbrace :: (tokInt t ++ [rbrace])

/-- `format_email_body` from src/utils.py: prepend the greeting built from
the recipient's actual name values, then apply the three global
replacements one after the other, in the order {email}, {first_name},
{last_name}. -/
def format_email_body (template : String) (recipient : Recipient) : String :=
  let greeting :=
    "Dear " ++ recipient.first_name ++ " " ++ recipient.last_name ++ ",\n\n"
  let body0 := greeting ++ template
  let body1 := pyReplace body0 "\x7bemail\x7d" recipient.email
  let body2 := pyReplace body1 "\x7bfirst_name\x7d" recipient.first_name
  let body3 := pyReplace body2 "\x7blast_name\x7d" recipient.last_name
  body3

/-- Fuel-indexed single-pass simultaneous substitution, following the
spec's words for the renderer: scan the combined string once, left to
right; each occurrence of one of the three literal tokens is replaced by
the recipient's corresponding field (the substituted value is not
rescanned); every other character, hence every unrecognized `\x7b...\x7d`
token, is copied verbatim. -/
def substFuel (r : Recipient) : Nat → List Char → List Char
  | 0, s => s
  | _ + 1, [] => []
  | fuel + 1, c :: cs =>
    match stripPre (tokChars .te) (c :: cs) with
    | some rest => r.email.data ++ substFuel r fuel rest
    | none =>
      match stripPre (tokChars .tf) (c :: cs) with
      | some rest => r.first_name.data ++ substFuel r fuel rest
      | none =>
        match stripPre (tokChars .tl) (c :: cs) with
        | some rest => r.last_name.data ++ substFuel r fuel rest
        | none => c :: substFuel r fuel cs

/-- Simultaneous substitution of the three placeholder tokens, as the spec
describes it. -/
def substSimul (r : Recipient) (s : List Char) : List Char :=
  substFuel r s.length s

/-- The greeting line the renderer prepends. -/
def greetingOf (r : Recipient) : String :=
  "Dear " ++ r.first_name ++ " " ++ r.last_name ++ ",\n\n"

/-- The renderer exactly as the claim words it: the greeting (built from
the recipient's actual values) followed by the template, with every
occurrence of the three literal tokens anywhere in that combined string
replaced simultaneously by the corresponding field, and any other
`\x7b...\x7d` token left verbatim. -/
def renderSpec (template : String) (r : Recipient) : String :=
  ⟨substSimul r (greetingOf r ++ template).data⟩

/-- The external calls an SMTP dispatch makes: `connectResult` is the
combined outcome of `SMTP(...)`/`starttls()`/`login(...)` (`none` =
connected and authenticated, `some m` = one of them raised with message
`m`); `sendResult i` is the outcome of `server.send_message` for the i-th
recipient. -/
structure SmtpEnv where
  connectResult : Option String
  sendResult : Nat → Option String

/-- The external calls an SES dispatch makes: `boto3Available` models the
`import boto3` succeeding, `clientResult` the `boto3.client(...)`
construction, `sendResult i` the i-th `ses_client.send_email` call (for a
failing call the string is the message the handler records: the extracted
`ClientError` message, or `str(e)` for any other exception — both `except`
branches then behave identically). -/
structure SesEnv where
  boto3Available : Bool
  clientResult : Option String
  sendResult : Nat → Option String

/-- Observable state accumulated by a dispatch: the progress events
emitted (current, total, message), the `failed` list of "email: reason"
strings, the submissions handed to the transport (to-address, subject,
rendered body) and how many times the SMTP connection was closed. -/
structure SendState where
  events : List (Nat × Nat × String)
  failed : List String
  sendCalls : List (String × String × String)
  quits : Nat
deriving Repr, DecidableEq

/-- The state before anything has happened. -/
def initState : SendState := ⟨[], [], [], 0⟩

/-- One iteration of the send loop.  The loop bodies of `send_emails_smtp`
and `send_emails_ses` are identical on the modelled state: construct the
message (To = recipient's email, the rendered body), submit it; on success
emit "Sent to ... (i+1/total)", on a caught exception record
"email: reason" in `failed` and emit "Failed: ...".  Either way exactly one
progress event fires when a callback is installed, and the loop continues. -/
def attemptStep (sendResult : Nat → Option String) (total : Nat)
    (hasCb : Bool) (subject body_template : String) (st : SendState)
    (i : Nat) (r : Recipient) : SendState :=
  let body := format_email_body body_template r
  match sendResult i with
  | none =>
    { st with
      sendCalls := st.sendCalls ++ [(r.email, subject, body)],
      events := st.events ++
        (if hasCb then
          [(i + 1, total,
            "Sent to " ++ r.email ++ " (" ++ toString (i + 1) ++ "/"
              ++ toString total ++ ")")]
        else []) }
  | some err =>
    { st with
      sendCalls := st.sendCalls ++ [(r.email, subject, body)],
      failed := st.failed ++ [r.email ++ ": " ++ err],
      events := st.events ++
        (if hasCb then [(i + 1, total, "Failed: " ++ r.email)] else []) }

/-- The `for i, recipient in enumerate(recipients)` loop shared by both
transports. -/
def sendLoop (sendResult : Nat → Option String) (total : Nat) (hasCb : Bool)
    (subject body_template : String) :
    Nat → List Recipient → SendState → SendState
  | _, [], st => st
  | i, r :: rs, st =>
    sendLoop sendResult total hasCb subject body_template (i + 1) rs
      (attemptStep sendResult total hasCb subject body_template st i r)

/-- The aggregate failure message both transports raise after the loop:
the count, up to five "email: reason" lines, and an overflow count exactly
when more than five failed. -/
def aggMsg (failed : List String) : String :=
  "Failed to send to " ++ toString failed.length ++ " recipients:\n"
    ++ String.intercalate "\n" (failed.take 5)
    ++ (if 5 < failed.length then
          "\n... and " ++ toString (failed.length - 5) ++ " more"
        else "")

/-- `send_emails_smtp` from src/utils.py.  Connect (raising "Failed to
connect to SMTP server: ..." on any connect/starttls/login failure, before
anything else happens), run the loop under `try/finally server.quit()`,
then raise the aggregate message iff any recipient failed. -/
def send_emails_smtp (env : SmtpEnv) (recipients : List Recipient)
    (subject body_template : String) (hasCb : Bool) :
    SendState × Except String Unit :=
  match env.connectResult with
  | some e => (initState, .error ("Failed to connect to SMTP server: " ++ e))
  | none =>
    let st := sendLoop env.sendResult recipients.length hasCb subject
      body_template 0 recipients initState
    let st2 := { st with quits := st.quits + 1 }
    if st2.failed.isEmpty then (st2, .ok ())
    else (st2, .error (aggMsg st2.failed))

/-- `send_emails_ses` from src/utils.py.  Import boto3 and build the SES
client (each failure raising before any recipient is touched), run the
same loop (no close step), then raise the aggregate message iff any
recipient failed. -/
def send_emails_ses (env : SesEnv) (recipients : List Recipient)
    (subject body_template : String) (hasCb : Bool) :
    SendState × Except String Unit :=
  if !env.boto3Available then
    (initState,
      .error "boto3 is required for AWS SES. Install it with: pip install boto3")
  else
    match env.clientResult with
    | some e => (initState, .error ("Failed to create AWS SES client: " ++ e))
    | none =>
      let st := sendLoop env.sendResult recipients.length hasCb subject
        body_template 0 recipients initState
      if st.failed.isEmpty then (st, .ok ())
      else (st, .error (aggMsg st.failed))

/-- The slice of the settings record the dispatcher consults:
`settings.get("provider", "smtp")` — `none` models an absent key. -/
structure Settings where
  provider : Option String

/-- `send_emails` from src/utils.py: pick the transport by the provider
tag (default "smtp", anything other than "ses" falls to SMTP) and return
the chosen transport's outcome unchanged. -/
def send_emails (envS : SmtpEnv) (envA : SesEnv)
    (recipients : List Recipient) (subject body_template : String)
    (settings : Settings) (hasCb : Bool) : SendState × Except String Unit :=
  let provider := settings.provider.getD "smtp"
  if provider == "ses" then
    send_emails_ses envA recipients subject body_template hasCb
  else
    send_emails_smtp envS recipients subject body_template hasCb

/-! ### Spec-side definitions and concrete witness data -/

/-- The first-name selector combined with the `elif` precedence: a column
already claimed by the e-mail test never reaches this arm. -/
def selFirst (col : String) : Bool := !selEmail col && selFirstRaw col

/-- The last-name selector combined with the `elif` precedence: a column
already claimed by the e-mail or first-name test never reaches this arm. -/
def selLast (col : String) : Bool :=
  !selEmail col && !selFirstRaw col && selLastRaw col

/-- The column the loop actually uses for a role, per the amended claim:
the LAST column of the header satisfying the selector. -/
def lastMatch (p : String → Bool) (cols : List String) : Option String :=
  cols.reverse.find? p

/-- A concrete table exercising C1: whitespace to trim, a null cell, an
invalid row to drop, duplicate rows to keep. -/
def dfC1 : Table :=
  ⟨["Email", "First Name", "Last Name"],
   [[some " a@x.com ", some " A ", none],
    [some "bad-email", some "C", some "D"],
    [some "e@x.com", some "E", some "F"],
    [some "e@x.com", some "E", some "F"]]⟩

/-- A header in which two columns qualify as the e-mail column. -/
def dfC6 : Table :=
  ⟨["Email", "ContactEmail", "FirstName", "LastName"],
   [[some "a@x.com", some "b@y.com", some "A", some "B"]]⟩

/-- A one-row table whose first-name cell is null. -/
def dfC10 : Table :=
  ⟨["Email", "FirstName", "LastName"], [[some "a@x.com", none, some " B "]]⟩

/-- `clash p q` is true iff comparing `p` elementwise against `q` hits a
mismatch before either list runs out; then `p` is a prefix of no extension
of `q`. -/
def clash : List Char → List Char → Bool
  | [], _ => false
  | _ :: _, [] => false
  | a :: xs, b :: ys => a != b || clash xs ys

/-- One building block of a template, used to state the amended C2: a
brace-free literal segment, one of the three recognized tokens, or an
unrecognized token `\x7bbody\x7d`. -/
inductive Blk
  | seg : List Char → Blk
  | tok : Tok → Blk
  | unk : List Char → Blk
deriving DecidableEq, Repr

/-- The text of a block list. -/
def flatB : List Blk → List Char
  | [] => []
  | .seg s :: bs => s ++ flatB bs
  | .tok t :: bs => tokChars t ++ flatB bs
  | .unk b :: bs => lbrace :: (b ++ (rbrace :: flatB bs))

/-- Well-formedness of a block: segments are brace-free; an unrecognized
token's body is brace-free and is not one of the three recognized
interiors. -/
def blkOk : Blk → Bool
  | .seg s => s.all (fun c => c != lbrace)
  | .tok _ => true
  | .unk b =>
      b.all (fun c => c != lbrace && c != rbrace)
        && b != tokInt .te && b != tokInt .tf && b != tokInt .tl

/-- The effect of one `str.replace` pass on a block: the targeted token
becomes a literal segment holding the substituted value; everything else
is untouched. -/
def replBlk (tt : Tok) (v : List Char) : Blk → Blk
  | .tok t => if t == tt then .seg v else .tok t
  | b => b

/-- The recipient field a token stands for. -/
def fieldOf (r : Recipient) : Tok → List Char
  | .te => r.email.data
  | .tf => r.first_name.data
  | .tl => r.last_name.data

/-- The effect of the spec's simultaneous substitution on a block. -/
def substBlk (r : Recipient) : Blk → Blk
  | .tok .te => .seg r.email.data
  | .tok .tf => .seg r.first_name.data
  | .tok .tl => .seg r.last_name.data
  | b => b

/-- The characters of the greeting `format_email_body` prepends. -/
def greetChars (r : Recipient) : List Char :=
  "Dear ".data ++ r.first_name.data ++ " ".data ++ r.last_name.data
    ++ ",\n\n".data

/-- The recipient of the concrete C2 witness. -/
def rC2 : Recipient := ⟨"al@x.com", "Al", "Ng"⟩

/-- The template blocks of the concrete C2 witness:
"Thanks, \x7bfirst_name\x7d! \x7bfoo\x7d\x7bemail\x7d". -/
def bsC2 : List Blk :=
  [.seg "Thanks, ".data, .tok .tf, .seg "! ".data, .unk "foo".data,
   .tok .te]

/-- The stream of progress events the send loop emits from index `i` on:
one event per recipient attempt, current = i+1, total fixed, message
"Sent to ..." or "Failed: ..." according to the attempt's outcome. -/
def evList (sr : Nat → Option String) (total : Nat) (cb : Bool) :
    Nat → List Recipient → List (Nat × Nat × String)
  | _, [] => []
  | i, r :: rs =>
    (if cb then
      [(i + 1, total,
        match sr i with
        | none =>
          "Sent to " ++ r.email ++ " (" ++ toString (i + 1) ++ "/"
            ++ toString total ++ ")"
        | some _ => "Failed: " ++ r.email)]
    else []) ++ evList sr total cb (i + 1) rs

/-- The "email: reason" failure lines the send loop records from index
`i` on, in recipient order, one per failing attempt. -/
def flList (sr : Nat → Option String) : Nat → List Recipient → List String
  | _, [] => []
  | i, r :: rs =>
    (match sr i with
      | none => []
      | some err => [r.email ++ ": " ++ err]) ++ flList sr (i + 1) rs

/-- The submissions the loop hands the transport, one per recipient, in
order: To-address, subject, rendered body. -/
def scList (subject tpl : String) (rs : List Recipient) :
    List (String × String × String) :=
  rs.map (fun r => (r.email, subject, format_email_body tpl r))

/-- Two concrete recipients for the transport witnesses. -/
def rsW : List Recipient := [⟨"a@x.com", "A", "B"⟩, ⟨"c@y.com", "C", "D"⟩]

/-- An SMTP session that connects but fails on the first send only. -/
def envSW : SmtpEnv := ⟨none, fun i => if i == 0 then some "boom" else none⟩

/-- An SES client that constructs and accepts every send. -/
def envAW : SesEnv := ⟨true, none, fun _ => none⟩

/-- Six concrete recipients, to exercise the overflow count of the
aggregate failure message. -/
def rs6 : List Recipient :=
  [⟨"u1@x.com", "A", "B"⟩, ⟨"u2@x.com", "C", "D"⟩, ⟨"u3@x.com", "E", "F"⟩,
   ⟨"u4@x.com", "G", "H"⟩, ⟨"u5@x.com", "I", "J"⟩, ⟨"u6@x.com", "K", "L"⟩]

/-- An SMTP session that connects but fails every send. -/
def envFailS : SmtpEnv := ⟨none, fun _ => some "smtp down"⟩

/-- An SES client that constructs but rejects every send. -/
def envFailA : SesEnv := ⟨true, none, fun _ => some "rejected"⟩

/-- An SMTP connection attempt that fails outright. -/
def envConnFail : SmtpEnv := ⟨some "refused", fun _ => none⟩

/-- An SES client whose construction fails. -/
def envClientFail : SesEnv := ⟨true, some "bad region", fun _ => none⟩

/-! ### Loader lemmas -/

/-- The append-accumulate loop of `load_csv` produces the `filterMap` of the
row conversion. -/
theorem foldl_loadStep_filterMap (cols : List String) (e f l : String) :
    ∀ (rows : List (List (Option String))) (acc : List Recipient),
      rows.foldl (loadStep cols e f l) acc
        = acc ++ rows.filterMap (convRow cols e f l) := by
  intro rows
  induction rows with
  | nil => intro acc; simp
  | cons row rest ih =>
    intro acc
    cases h : convRow cols e f l row <;>
      simp [List.foldl_cons, loadStep, h, ih, List.filterMap_cons]

/-- `loadRows` is the order-preserving `filterMap` of `convRow`. -/
theorem loadRows_eq_filterMap (cols : List String) (e f l : String)
    (rows : List (List (Option String))) :
    loadRows cols e f l rows = rows.filterMap (convRow cols e f l) := by
  unfold loadRows
  exact (foldl_loadStep_filterMap cols e f l rows []).trans
    (List.nil_append _)

/-- When the three role columns resolve, `load_csv` succeeds with exactly
the converted rows. -/
theorem load_csv_ok (df : Table) (e f l : String)
    (h : resolveCols df.columns = (some e, some f, some l)) :
    load_csv (.ok df) = .ok (df.rows.filterMap (convRow df.columns e f l)) := by
  have e1 : load_csv (.ok df)
      = (match resolveCols df.columns with
        | (some e, some f, some l) => Except.ok (loadRows df.columns e f l df.rows)
        | (ec, fc, lc) =>
          Except.error ("Failed to load CSV: Missing required columns: "
            ++ String.intercalate ", " (missingRoles ec fc lc)
            ++ "\nAvailable columns: "
            ++ String.intercalate ", " df.columns)) := rfl
  rw [e1, h]
  show Except.ok (loadRows df.columns e f l df.rows) = _
  rw [loadRows_eq_filterMap]

/-- C1: for every readable tabular file whose three role columns resolve,
`load_csv` returns exactly those rows whose email cell — stringified and
trimmed of surrounding whitespace — is non-empty and matches the
email-syntax regex, each converted to a `Recipient` with all three fields
trimmed, in file row order, without deduplication; dropped rows raise no
error (the result is `.ok`). -/
theorem C1_load_filters_and_trims (df : Table) (e f l : String)
    (h : resolveCols df.columns = (some e, some f, some l)) :
    load_csv (.ok df) = .ok (df.rows.filterMap (fun row =>
      let em := pyStrip (pyStr (cellVal df.columns row e))
      if (em != "") && is_valid_email em then
        some ⟨em, pyStrip (pyStr (cellVal df.columns row f)),
              pyStrip (pyStr (cellVal df.columns row l))⟩
      else none)) :=
  load_csv_ok df e f l h

/-- C1 at a concrete input: the invalid row is dropped without error,
fields are trimmed, the null cell stringifies, duplicates survive. -/
theorem C1_witness :
    resolveCols dfC1.columns
      = (some "Email", some "First Name", some "Last Name") ∧
    load_csv (.ok dfC1) = .ok
      [⟨"a@x.com", "A", "None"⟩, ⟨"e@x.com", "E", "F"⟩,
       ⟨"e@x.com", "E", "F"⟩] :=
  ⟨rfl,
    (C1_load_filters_and_trims dfC1 "Email" "First Name" "Last Name"
      rfl).trans (by rfl)⟩

/-- The resolution loop keeps the last qualifying column of each role (the
loop has no `break` and unconditionally overwrites). -/
theorem resolveCols_eq_lastMatch (cols : List String) :
    resolveCols cols
      = (lastMatch selEmail cols, lastMatch selFirst cols,
         lastMatch selLast cols) := by
  induction cols using List.reverseRecOn with
  | nil => rfl
  | append_singleton xs x ih =>
    have hfold : resolveCols (xs ++ [x]) = roleStep (resolveCols xs) x := by
      unfold resolveCols
      rw [List.foldl_append]
      rfl
    rw [hfold, ih]
    unfold lastMatch roleStep
    rw [List.reverse_append]
    by_cases h1 : selEmail x <;> by_cases h2 : selFirstRaw x <;>
      by_cases h3 : selLastRaw x <;>
        simp [List.find?, selFirst, selLast, h1, h2, h3]

/-- C6 amended: when several header columns qualify for the same role, the
LAST matching column in header order (under the `elif` precedence
email > first-name > last-name) is the one `load_csv` resolves and hence
uses to populate every returned `Recipient`. -/
theorem C6_amended_last_match_wins (cols : List String) :
    resolveCols cols
      = (lastMatch selEmail cols, lastMatch selFirst cols,
         lastMatch selLast cols) :=
  resolveCols_eq_lastMatch cols

/-- C6 counterexample: with both "Email" and "ContactEmail" qualifying,
the recipient is populated from the LAST matching column ("ContactEmail",
value "b@y.com"), not the first ("Email", value "a@x.com") as the claim
states. -/
theorem C6_counterexample :
    load_csv (.ok dfC6) = .ok [⟨"b@y.com", "A", "B"⟩] ∧
    load_csv (.ok dfC6) ≠ .ok [⟨"a@x.com", "A", "B"⟩] := by
  refine ⟨rfl, fun hcontra => ?_⟩
  rw [show load_csv (.ok dfC6) = .ok [⟨"b@y.com", "A", "B"⟩] from rfl]
    at hcontra
  simp at hcontra

/-- C7 amended: when a role cannot be resolved, `load_csv` fails with a
message naming exactly the unresolved roles and listing the available
columns — but wrapped in the same generic "Failed to load CSV: " exception
as an unreadable or unparseable file. -/
theorem C7_amended_missing_columns (df : Table) (ec fc lc : Option String)
    (h : resolveCols df.columns = (ec, fc, lc))
    (hmiss : ec = none ∨ fc = none ∨ lc = none) :
    load_csv (.ok df) =
      .error ("Failed to load CSV: Missing required columns: "
        ++ String.intercalate ", "
          ((if ec = none then ["email"] else [])
            ++ (if fc = none then ["first_name"] else [])
            ++ (if lc = none then ["last_name"] else []))
        ++ "\nAvailable columns: " ++ String.intercalate ", " df.columns) := by
  have e1 : load_csv (.ok df)
      = (match resolveCols df.columns with
        | (some e, some f, some l) => Except.ok (loadRows df.columns e f l df.rows)
        | (ec, fc, lc) =>
          Except.error ("Failed to load CSV: Missing required columns: "
            ++ String.intercalate ", " (missingRoles ec fc lc)
            ++ "\nAvailable columns: "
            ++ String.intercalate ", " df.columns)) := rfl
  rw [e1, h]
  rcases ec with _ | e <;> rcases fc with _ | f <;> rcases lc with _ | l <;>
    simp [missingRoles] at hmiss ⊢

/-- C7 counterexample: a table with no resolvable columns and a file whose
read fails with a crafted cause produce the very same error value, so the
missing-columns failure is not distinguishable from the load failure. -/
theorem C7_counterexample :
    load_csv (.ok (⟨[], []⟩ : Table)) =
      load_csv (.error
        "Missing required columns: email, first_name, last_name\nAvailable columns: ")
    ∧ ∃ m, load_csv (.ok (⟨[], []⟩ : Table)) = .error m :=
  ⟨rfl, ⟨_, rfl⟩⟩

/-- C7 amended at a concrete input: header ["Email"] lacks the two name
roles, and the error names exactly those and lists the header. -/
theorem C7_witness :
    resolveCols (["Email"] : List String) = (some "Email", none, none) ∧
    load_csv (.ok (⟨["Email"], []⟩ : Table)) =
      .error ("Failed to load CSV: Missing required columns: "
        ++ "first_name, last_name" ++ "\nAvailable columns: Email") :=
  ⟨rfl,
    (C7_amended_missing_columns ⟨["Email"], []⟩ (some "Email") none none rfl
      (Or.inr (Or.inl rfl))).trans (by rfl)⟩

/-- C10: a row whose first-name or last-name cell is null but whose email
is non-empty and valid is not dropped; the null cell is stringified, so
the corresponding `Recipient` field is the literal string "None". -/
theorem C10_null_cell_becomes_None (df : Table) (e f l : String)
    (row : List (Option String))
    (hres : resolveCols df.columns = (some e, some f, some l))
    (hmem : row ∈ df.rows)
    (hok : ((pyStrip (pyStr (cellVal df.columns row e)) != "")
        && is_valid_email (pyStrip (pyStr (cellVal df.columns row e))))
        = true) :
    ∃ rs, load_csv (.ok df) = .ok rs ∧
      (⟨pyStrip (pyStr (cellVal df.columns row e)),
        pyStrip (pyStr (cellVal df.columns row f)),
        pyStrip (pyStr (cellVal df.columns row l))⟩ : Recipient) ∈ rs ∧
      (cellVal df.columns row f = none →
        pyStrip (pyStr (cellVal df.columns row f)) = "None") ∧
      (cellVal df.columns row l = none →
        pyStrip (pyStr (cellVal df.columns row l)) = "None") := by
  refine ⟨_, load_csv_ok df e f l hres, ?_, ?_, ?_⟩
  · exact List.mem_filterMap.mpr ⟨row, hmem, by simp [convRow, hok]⟩
  · intro hnull; rw [hnull]; rfl
  · intro hnull; rw [hnull]; rfl

/-- C10 at a concrete input: the row with a null first-name cell survives
and its first_name field is the literal "None". -/
theorem C10_witness :
    ∃ rs, load_csv (.ok dfC10) = .ok rs ∧
      (⟨"a@x.com", "None", "B"⟩ : Recipient) ∈ rs := by
  obtain ⟨rs, h1, h2, h3, h4⟩ :=
    C10_null_cell_becomes_None dfC10 "Email" "FirstName" "LastName"
      [some "a@x.com", none, some " B "] rfl (List.mem_singleton.mpr rfl) rfl
  exact ⟨rs, h1, h2⟩

/-! ### Renderer lemmas -/

/-- A successful `stripPre` decomposes its input. -/
theorem stripPre_eq_some (pre : List Char) :
    ∀ s rest, stripPre pre s = some rest → s = pre ++ rest := by
  induction pre with
  | nil =>
    intro s rest h
    simp only [stripPre, Option.some.injEq] at h
    simp [h]
  | cons a xs ih =>
    intro s rest h
    cases s with
    | nil => simp [stripPre] at h
    | cons b ys =>
      by_cases hab : a = b
      · subst hab
        have h' : stripPre xs ys = some rest := by simpa [stripPre] using h
        simpa using ih ys rest h'
      · simp [stripPre, hab] at h

/-- `stripPre` succeeds on its own extension. -/
theorem stripPre_append_self (pre rest : List Char) :
    stripPre pre (pre ++ rest) = some rest := by
  induction pre with
  | nil => rfl
  | cons a xs ih => simp [stripPre, ih]

/-- A head mismatch makes `stripPre` fail. -/
theorem stripPre_head_ne (a c : Char) (xs cs : List Char) (h : ¬ a = c) :
    stripPre (a :: xs) (c :: cs) = none := by
  simp [stripPre, h]

/-- A clash inside the compared region makes `stripPre` fail on every
extension. -/
theorem clash_stripPre (p : List Char) :
    ∀ q rest, clash p q = true → stripPre p (q ++ rest) = none := by
  induction p with
  | nil => intro q rest h; simp [clash] at h
  | cons a xs ih =>
    intro q rest h
    cases q with
    | nil => simp [clash] at h
    | cons b ys =>
      by_cases hab : a = b
      · subst hab
        have h' : clash xs ys = true := by simpa [clash] using h
        simp [stripPre, ih ys rest h']
      · simp [stripPre, hab]

/-- Comparing an interior-plus-closing-brace against a different
brace-free body followed by a closing brace always fails, whatever
follows. -/
theorem stripPre_interior (t : List Char) (ht : rbrace ∉ t) :
    ∀ body rest, rbrace ∉ body → body ≠ t →
      stripPre (t ++ [rbrace]) (body ++ rbrace :: rest) = none := by
  induction t with
  | nil =>
    intro body rest hb hne
    cases body with
    | nil => exact absurd rfl hne
    | cons c bs' =>
      have hc : ¬ rbrace = c := fun h => hb (h ▸ List.mem_cons_self c bs')
      simpa using stripPre_head_ne rbrace c [] (bs' ++ rbrace :: rest) hc
  | cons a t' ih =>
    intro body rest hb hne
    cases body with
    | nil =>
      have ha : ¬ a = rbrace := fun h => ht (h ▸ List.mem_cons_self a t')
      simpa using stripPre_head_ne a rbrace (t' ++ [rbrace]) rest ha
    | cons c bs' =>
      by_cases hac : a = c
      · subst hac
        have hrec : stripPre (t' ++ [rbrace]) (bs' ++ rbrace :: rest) = none :=
          ih (fun h => ht (List.mem_cons_of_mem a h)) bs' rest
            (fun h => hb (List.mem_cons_of_mem a h))
            (fun h => hne (by rw [h]))
        simp [stripPre, hrec]
      · simp [stripPre, hac]

/-- Enough fuel makes `replaceFuel` independent of the exact amount. -/
theorem replaceFuel_irrel (old new : List Char) :
    ∀ f1 f2 s, s.length ≤ f1 → s.length ≤ f2 →
      replaceFuel old new f1 s = replaceFuel old new f2 s := by
  intro f1
  induction f1 with
  | zero =>
    intro f2 s h1 _
    have hs : s = [] := List.eq_nil_of_length_eq_zero (Nat.le_zero.mp h1)
    subst hs
    cases f2 <;> rfl
  | succ f ih =>
    intro f2 s h1 h2
    cases s with
    | nil => cases f2 <;> rfl
    | cons c cs =>
      cases f2 with
      | zero => simp at h2
      | succ g =>
        have hc1 : cs.length ≤ f := by simpa using h1
        have hc2 : cs.length ≤ g := by simpa using h2
        simp only [replaceFuel]
        by_cases hemp : old.isEmpty
        · simp [hemp, ih g cs hc1 hc2]
        · simp only [hemp, Bool.false_eq_true, if_false]
          cases hm : stripPre old (c :: cs) with
          | none => simp [ih g cs hc1 hc2]
          | some rest =>
            have hdec := stripPre_eq_some old _ _ hm
            have hone : 1 ≤ old.length := by
              cases old with
              | nil => simp [List.isEmpty] at hemp
              | cons _ _ => simp
            have hlenEq : cs.length + 1 = old.length + rest.length := by
              simpa using congrArg List.length hdec
            have hr1 : rest.length ≤ f := by omega
            have hr2 : rest.length ≤ g := by omega
            simp [ih g rest hr1 hr2]

/-- `replaceChars` at a non-matching head copies the character. -/
theorem replaceChars_cons_none (x c : Char) (xs cs new : List Char)
    (h : stripPre (x :: xs) (c :: cs) = none) :
    replaceChars (x :: xs) new (c :: cs)
      = c :: replaceChars (x :: xs) new cs := by
  unfold replaceChars
  simp [replaceFuel, h]

/-- `replaceChars` at a matching head emits the replacement and continues
after the matched text. -/
theorem replaceChars_cons_match (x : Char) (xs new s rest : List Char)
    (h : stripPre (x :: xs) s = some rest) :
    replaceChars (x :: xs) new s = new ++ replaceChars (x :: xs) new rest := by
  have hs := stripPre_eq_some _ _ _ h
  subst hs
  unfold replaceChars
  have hmatch : stripPre (x :: xs) (x :: (xs ++ rest)) = some rest :=
    stripPre_append_self (x :: xs) rest
  simp only [List.cons_append, List.length_cons, replaceFuel, List.isEmpty_cons,
    List.append_eq, Bool.false_eq_true, if_false]
  rw [hmatch]
  show new ++ replaceFuel (x :: xs) new (xs ++ rest).length rest
      = new ++ replaceFuel (x :: xs) new rest.length rest
  congr 1
  apply replaceFuel_irrel
  · simp
  · exact Nat.le_refl _

/-- A brace-free prefix passes through a token replacement unchanged. -/
theorem replaceChars_append_pre (xs new : List Char) :
    ∀ pre rest, lbrace ∉ pre →
      replaceChars (lbrace :: xs) new (pre ++ rest)
        = pre ++ replaceChars (lbrace :: xs) new rest := by
  intro pre
  induction pre with
  | nil => intro rest _; simp
  | cons c cs ih =>
    intro rest h
    have hxc : ¬ lbrace = c := fun hEq => h (hEq ▸ List.mem_cons_self c cs)
    rw [List.cons_append,
      replaceChars_cons_none _ _ _ _ _ (stripPre_head_ne _ _ _ _ hxc),
      ih rest (fun hm => h (List.mem_cons_of_mem c hm))]
    rfl

/-- A token that matches at the head of `c :: cs` leaves a shorter rest. -/
theorem stripPre_tok_len {t : Tok} {c : Char} {cs rest : List Char}
    (h : stripPre (tokChars t) (c :: cs) = some rest) :
    rest.length ≤ cs.length := by
  have hdec := stripPre_eq_some _ _ _ h
  have hlen2 : cs.length + 1 = (tokChars t).length + rest.length := by
    simpa using congrArg List.length hdec
  have hpos : 1 ≤ (tokChars t).length := by cases t <;> decide
  omega

/-- Enough fuel makes `substFuel` independent of the exact amount. -/
theorem substFuel_irrel (r : Recipient) :
    ∀ f1 f2 s, s.length ≤ f1 → s.length ≤ f2 →
      substFuel r f1 s = substFuel r f2 s := by
  intro f1
  induction f1 with
  | zero =>
    intro f2 s h1 _
    have hs : s = [] := List.eq_nil_of_length_eq_zero (Nat.le_zero.mp h1)
    subst hs
    cases f2 <;> rfl
  | succ f ih =>
    intro f2 s h1 h2
    cases s with
    | nil => cases f2 <;> rfl
    | cons c cs =>
      cases f2 with
      | zero => simp at h2
      | succ g =>
        have hc1 : cs.length ≤ f := by simpa using h1
        have hc2 : cs.length ≤ g := by simpa using h2
        simp only [substFuel]
        cases hme : stripPre (tokChars .te) (c :: cs) with
        | some rest =>
          have hr := stripPre_tok_len hme
          simp [ih g rest (le_trans hr hc1) (le_trans hr hc2)]
        | none =>
          cases hmf : stripPre (tokChars .tf) (c :: cs) with
          | some rest =>
            have hr := stripPre_tok_len hmf
            simp [ih g rest (le_trans hr hc1) (le_trans hr hc2)]
          | none =>
            cases hml : stripPre (tokChars .tl) (c :: cs) with
            | some rest =>
              have hr := stripPre_tok_len hml
              simp [ih g rest (le_trans hr hc1) (le_trans hr hc2)]
            | none => simp [ih g cs hc1 hc2]

/-- The scanner copies a character at which no token matches. -/
theorem substSimul_cons_none (r : Recipient) (c : Char) (cs : List Char)
    (h1 : stripPre (tokChars .te) (c :: cs) = none)
    (h2 : stripPre (tokChars .tf) (c :: cs) = none)
    (h3 : stripPre (tokChars .tl) (c :: cs) = none) :
    substSimul r (c :: cs) = c :: substSimul r cs := by
  unfold substSimul
  simp [substFuel, h1, h2, h3]

/-- The scanner substitutes the email field at a "\x7bemail\x7d" match. -/
theorem substSimul_cons_matchE (r : Recipient) (c : Char) (cs rest : List Char)
    (h : stripPre (tokChars .te) (c :: cs) = some rest) :
    substSimul r (c :: cs) = r.email.data ++ substSimul r rest := by
  unfold substSimul
  simp only [List.length_cons, substFuel, h]
  congr 1
  exact substFuel_irrel r cs.length rest.length rest (stripPre_tok_len h)
    (Nat.le_refl _)

/-- The scanner substitutes the first-name field at a "\x7bfirst_name\x7d"
match. -/
theorem substSimul_cons_matchF (r : Recipient) (c : Char) (cs rest : List Char)
    (h1 : stripPre (tokChars .te) (c :: cs) = none)
    (h2 : stripPre (tokChars .tf) (c :: cs) = some rest) :
    substSimul r (c :: cs) = r.first_name.data ++ substSimul r rest := by
  unfold substSimul
  simp only [List.length_cons, substFuel, h1, h2]
  congr 1
  exact substFuel_irrel r cs.length rest.length rest (stripPre_tok_len h2)
    (Nat.le_refl _)

/-- The scanner substitutes the last-name field at a "\x7blast_name\x7d"
match. -/
theorem substSimul_cons_matchL (r : Recipient) (c : Char) (cs rest : List Char)
    (h1 : stripPre (tokChars .te) (c :: cs) = none)
    (h2 : stripPre (tokChars .tf) (c :: cs) = none)
    (h3 : stripPre (tokChars .tl) (c :: cs) = some rest) :
    substSimul r (c :: cs) = r.last_name.data ++ substSimul r rest := by
  unfold substSimul
  simp only [List.length_cons, substFuel, h1, h2, h3]
  congr 1
  exact substFuel_irrel r cs.length rest.length rest (stripPre_tok_len h3)
    (Nat.le_refl _)

/-- The scanner at a whole token substitutes the corresponding field. -/
theorem substSimul_tok (r : Recipient) (t : Tok) (rest : List Char) :
    substSimul r (tokChars t ++ rest) = fieldOf r t ++ substSimul r rest := by
  cases t with
  | te =>
    exact substSimul_cons_matchE r lbrace _ rest
      (stripPre_append_self (tokChars .te) rest)
  | tf =>
    exact substSimul_cons_matchF r lbrace _ rest
      (clash_stripPre _ _ _ (by decide))
      (stripPre_append_self (tokChars .tf) rest)
  | tl =>
    exact substSimul_cons_matchL r lbrace _ rest
      (clash_stripPre _ _ _ (by decide))
      (clash_stripPre _ _ _ (by decide))
      (stripPre_append_self (tokChars .tl) rest)

/-- A brace-free prefix passes through the scanner unchanged. -/
theorem substSimul_append_pre (r : Recipient) :
    ∀ pre rest, lbrace ∉ pre →
      substSimul r (pre ++ rest) = pre ++ substSimul r rest := by
  intro pre
  induction pre with
  | nil => intro rest _; simp
  | cons c cs ih =>
    intro rest h
    have hxc : ∀ t : Tok,
        stripPre (tokChars t) (c :: (cs ++ rest)) = none := fun t =>
      stripPre_head_ne lbrace c _ _
        (fun hEq => h (hEq ▸ List.mem_cons_self c cs))
    rw [List.cons_append,
      substSimul_cons_none r c _ (hxc .te) (hxc .tf) (hxc .tl),
      ih rest (fun hm => h (List.mem_cons_of_mem c hm))]
    rfl

/-- No token matches at the opening brace of a different, brace-free
unknown token body. -/
theorem stripPre_tok_unk (t : Tok) (body rest : List Char)
    (hbR : rbrace ∉ body) (hne : body ≠ tokInt t) :
    stripPre (tokChars t) (lbrace :: (body ++ rbrace :: rest)) = none := by
  have h : stripPre (tokInt t ++ [rbrace]) (body ++ rbrace :: rest) = none :=
    stripPre_interior (tokInt t) (by cases t <;> decide) body rest hbR hne
  show stripPre (lbrace :: (tokInt t ++ [rbrace]))
      (lbrace :: (body ++ rbrace :: rest)) = none
  simp [stripPre, h]

/-- Unpack the well-formedness of an unknown-token block. -/
theorem blkOk_unk_parts {b : List Char} (h : blkOk (Blk.unk b) = true) :
    lbrace ∉ b ∧ rbrace ∉ b ∧ b ≠ tokInt .te ∧ b ≠ tokInt .tf
      ∧ b ≠ tokInt .tl := by
  simp only [blkOk, Bool.and_eq_true, List.all_eq_true, bne_iff_ne] at h
  obtain ⟨⟨⟨hall, h1⟩, h2⟩, h3⟩ := h
  refine ⟨?_, ?_, h1, h2, h3⟩
  · intro hm; exact ((hall _ hm).1) rfl
  · intro hm; exact ((hall _ hm).2) rfl

/-- Unpack the well-formedness of a segment block. -/
theorem blkOk_seg_part {s : List Char} (h : blkOk (Blk.seg s) = true) :
    lbrace ∉ s := by
  simp only [blkOk, List.all_eq_true, bne_iff_ne] at h
  intro hm
  exact (h _ hm) rfl

/-- One `str.replace` pass over a well-formed block list rewrites exactly
the blocks holding the targeted token. -/
theorem replaceChars_flat (tt : Tok) (v : List Char) :
    ∀ bs : List Blk, (∀ b ∈ bs, blkOk b = true) →
      replaceChars (tokChars tt) v (flatB bs)
        = flatB (bs.map (replBlk tt v)) := by
  intro bs
  induction bs with
  | nil => intro _; rfl
  | cons b bs' ih =>
    intro hok
    have hb := hok b (List.mem_cons_self _ _)
    have hbs' : ∀ x ∈ bs', blkOk x = true :=
      fun x hx => hok x (List.mem_cons_of_mem _ hx)
    cases b with
    | seg s =>
      have hs := blkOk_seg_part hb
      calc replaceChars (tokChars tt) v (flatB (Blk.seg s :: bs'))
          = s ++ replaceChars (tokChars tt) v (flatB bs') :=
            replaceChars_append_pre (tokInt tt ++ [rbrace]) v s (flatB bs') hs
        _ = s ++ flatB (bs'.map (replBlk tt v)) := by rw [ih hbs']
        _ = flatB ((Blk.seg s :: bs').map (replBlk tt v)) := rfl
    | tok t =>
      by_cases htt : t = tt
      · subst htt
        calc replaceChars (tokChars t) v (flatB (Blk.tok t :: bs'))
            = v ++ replaceChars (tokChars t) v (flatB bs') :=
              replaceChars_cons_match lbrace (tokInt t ++ [rbrace]) v _ _
                (stripPre_append_self (tokChars t) (flatB bs'))
          _ = v ++ flatB (bs'.map (replBlk t v)) := by rw [ih hbs']
          _ = flatB ((Blk.tok t :: bs').map (replBlk t v)) := by
              simp [flatB, replBlk]
      · have hcl : clash (tokChars tt) (tokChars t) = true := by
          cases t <;> cases tt <;> (try exact absurd rfl htt) <;> decide
        have hnone : stripPre (tokChars tt) (tokChars t ++ flatB bs') = none :=
          clash_stripPre _ _ _ hcl
        have hpre : lbrace ∉ (tokInt t ++ [rbrace]) := by cases t <;> decide
        calc replaceChars (tokChars tt) v (flatB (Blk.tok t :: bs'))
            = lbrace :: replaceChars (tokChars tt) v
                ((tokInt t ++ [rbrace]) ++ flatB bs') :=
              replaceChars_cons_none lbrace lbrace (tokInt tt ++ [rbrace]) _ v
                hnone
          _ = lbrace :: ((tokInt t ++ [rbrace])
                ++ replaceChars (tokChars tt) v (flatB bs')) :=
              congrArg (List.cons lbrace)
                (replaceChars_append_pre (tokInt tt ++ [rbrace]) v _ _ hpre)
          _ = lbrace :: ((tokInt t ++ [rbrace])
                ++ flatB (bs'.map (replBlk tt v))) := by rw [ih hbs']
          _ = flatB ((Blk.tok t :: bs').map (replBlk tt v)) := by
              simp [flatB, replBlk, htt, tokChars]
    | unk body =>
      obtain ⟨hbl, hbr, hne, hnf, hnl⟩ := blkOk_unk_parts hb
      have hnet : body ≠ tokInt tt := by cases tt <;> assumption
      have hnone : stripPre (tokChars tt)
          (lbrace :: (body ++ rbrace :: flatB bs')) = none :=
        stripPre_tok_unk tt body (flatB bs') hbr hnet
      calc replaceChars (tokChars tt) v (flatB (Blk.unk body :: bs'))
          = lbrace :: replaceChars (tokChars tt) v
              (body ++ rbrace :: flatB bs') :=
            replaceChars_cons_none lbrace lbrace (tokInt tt ++ [rbrace]) _ v
              hnone
        _ = lbrace :: (body
              ++ replaceChars (tokChars tt) v (rbrace :: flatB bs')) :=
            congrArg (List.cons lbrace)
              (replaceChars_append_pre (tokInt tt ++ [rbrace]) v body _ hbl)
        _ = lbrace :: (body
              ++ (rbrace :: replaceChars (tokChars tt) v (flatB bs'))) :=
            congrArg (fun z => lbrace :: (body ++ z))
              (replaceChars_cons_none lbrace rbrace (tokInt tt ++ [rbrace]) _ v
                (stripPre_head_ne lbrace rbrace _ _ (by decide)))
        _ = lbrace :: (body ++ (rbrace :: flatB (bs'.map (replBlk tt v)))) := by
            rw [ih hbs']
        _ = flatB ((Blk.unk body :: bs').map (replBlk tt v)) := rfl

/-- The spec's simultaneous substitution over a well-formed block list
rewrites exactly the token blocks, all at once. -/
theorem substSimul_flat (r : Recipient) :
    ∀ bs : List Blk, (∀ b ∈ bs, blkOk b = true) →
      substSimul r (flatB bs) = flatB (bs.map (substBlk r)) := by
  intro bs
  induction bs with
  | nil => intro _; rfl
  | cons b bs' ih =>
    intro hok
    have hb := hok b (List.mem_cons_self _ _)
    have hbs' : ∀ x ∈ bs', blkOk x = true :=
      fun x hx => hok x (List.mem_cons_of_mem _ hx)
    cases b with
    | seg s =>
      have hs := blkOk_seg_part hb
      calc substSimul r (flatB (Blk.seg s :: bs'))
          = s ++ substSimul r (flatB bs') :=
            substSimul_append_pre r s (flatB bs') hs
        _ = s ++ flatB (bs'.map (substBlk r)) := by rw [ih hbs']
        _ = flatB ((Blk.seg s :: bs').map (substBlk r)) := rfl
    | tok t =>
      calc substSimul r (flatB (Blk.tok t :: bs'))
          = fieldOf r t ++ substSimul r (flatB bs') :=
            substSimul_tok r t (flatB bs')
        _ = fieldOf r t ++ flatB (bs'.map (substBlk r)) := by rw [ih hbs']
        _ = flatB ((Blk.tok t :: bs').map (substBlk r)) := by
            cases t <;> rfl
    | unk body =>
      obtain ⟨hbl, hbr, hne, hnf, hnl⟩ := blkOk_unk_parts hb
      have hnone : ∀ t : Tok, stripPre (tokChars t)
          (lbrace :: (body ++ rbrace :: flatB bs')) = none := by
        intro t
        apply stripPre_tok_unk t body (flatB bs') hbr
        cases t <;> assumption
      have hrne : ∀ t : Tok,
          stripPre (tokChars t) (rbrace :: flatB bs') = none := fun t =>
        stripPre_head_ne lbrace rbrace _ _ (by decide)
      calc substSimul r (flatB (Blk.unk body :: bs'))
          = lbrace :: substSimul r (body ++ rbrace :: flatB bs') :=
            substSimul_cons_none r lbrace _ (hnone .te) (hnone .tf) (hnone .tl)
        _ = lbrace :: (body ++ substSimul r (rbrace :: flatB bs')) := by
            rw [substSimul_append_pre r body _ hbl]
        _ = lbrace :: (body ++ (rbrace :: substSimul r (flatB bs'))) := by
            rw [substSimul_cons_none r rbrace _ (hrne .te) (hrne .tf)
              (hrne .tl)]
        _ = lbrace :: (body ++ (rbrace :: flatB (bs'.map (substBlk r)))) := by
            rw [ih hbs']
        _ = flatB ((Blk.unk body :: bs').map (substBlk r)) := rfl

/-- A replacement pass with a brace-free value keeps the block list
well-formed. -/
theorem blkOk_map_replBlk (tt : Tok) (v : List Char)
    (hv : v.all (fun c => c != lbrace) = true) (bs : List Blk)
    (h : ∀ b ∈ bs, blkOk b = true) :
    ∀ b ∈ bs.map (replBlk tt v), blkOk b = true := by
  intro b hbm
  obtain ⟨a, ha, rfl⟩ := List.mem_map.mp hbm
  have hA := h a ha
  cases a with
  | seg s => exact hA
  | unk u => exact hA
  | tok t =>
    by_cases htt : t = tt
    · subst htt; simp [replBlk, blkOk, hv]
    · simpa [replBlk, htt] using hA

/-- The character-level form of `format_email_body`: the three sequential
global replacements applied to greeting-plus-template. -/
theorem format_email_body_data (template : String) (r : Recipient) :
    (format_email_body template r).data
      = replaceChars (tokChars .tl) r.last_name.data
          (replaceChars (tokChars .tf) r.first_name.data
            (replaceChars (tokChars .te) r.email.data
              (greetChars r ++ template.data))) := by
  simp only [format_email_body, pyReplace, String.data_append, greetChars]
  rfl

/-- The character-level form of `renderSpec`. -/
theorem renderSpec_data (template : String) (r : Recipient) :
    (renderSpec template r).data
      = substSimul r (greetChars r ++ template.data) := by
  simp only [renderSpec, greetingOf, String.data_append, greetChars]

/-- The greeting is brace-free when the recipient's name fields are. -/
theorem greet_noLB (r : Recipient) (hf : lbrace ∉ r.first_name.data)
    (hl : lbrace ∉ r.last_name.data) : lbrace ∉ greetChars r := by
  intro hm
  simp only [greetChars, List.mem_append] at hm
  rcases hm with (((h | h) | h) | h) | h
  · revert h; decide
  · exact hf h
  · revert h; decide
  · exact hl h
  · revert h; decide

/-- C2 amended: the renderer applies the three replacements one after
another in the order \x7bemail\x7d, \x7bfirst_name\x7d, \x7blast_name\x7d,
so a token contained in (or assembled around) an earlier substitution's
output is itself replaced by a later pass; whenever the recipient's three
fields contain no opening brace and the template is a concatenation of
brace-free literal segments, recognized tokens, and complete unknown
brace-tokens, this coincides with the claim's simultaneous description:
the greeting followed by the combined string with every occurrence of the
three tokens replaced by the corresponding field and unknown tokens left
verbatim. -/
theorem C2_amended_sequential_rendering (r : Recipient) (bs : List Blk)
    (he : lbrace ∉ r.email.data) (hf : lbrace ∉ r.first_name.data)
    (hl : lbrace ∉ r.last_name.data)
    (hbs : ∀ b ∈ bs, blkOk b = true) :
    format_email_body ⟨flatB bs⟩ r = renderSpec ⟨flatB bs⟩ r := by
  apply String.ext
  rw [format_email_body_data, renderSpec_data]
  have hseg : blkOk (Blk.seg (greetChars r)) = true := by
    simp only [blkOk, List.all_eq_true, bne_iff_ne]
    intro c hc
    exact fun hEq => greet_noLB r hf hl (hEq ▸ hc)
  have hbs1 : ∀ b ∈ (Blk.seg (greetChars r) :: bs), blkOk b = true := by
    intro b hbm
    rcases List.mem_cons.mp hbm with h | h
    · subst h; exact hseg
    · exact hbs b h
  have hE : (r.email.data).all (fun c => c != lbrace) = true := by
    rw [List.all_eq_true]
    intro c hc
    rw [bne_iff_ne]
    exact fun hEq => he (hEq ▸ hc)
  have hF : (r.first_name.data).all (fun c => c != lbrace) = true := by
    rw [List.all_eq_true]
    intro c hc
    rw [bne_iff_ne]
    exact fun hEq => hf (hEq ▸ hc)
  have hL : (r.last_name.data).all (fun c => c != lbrace) = true := by
    rw [List.all_eq_true]
    intro c hc
    rw [bne_iff_ne]
    exact fun hEq => hl (hEq ▸ hc)
  have hbs2 := blkOk_map_replBlk Tok.te r.email.data hE _ hbs1
  have hbs3 := blkOk_map_replBlk Tok.tf r.first_name.data hF _ hbs2
  have h0 : greetChars r ++ (⟨flatB bs⟩ : String).data
      = flatB (Blk.seg (greetChars r) :: bs) := rfl
  rw [h0, replaceChars_flat Tok.te r.email.data _ hbs1,
    replaceChars_flat Tok.tf r.first_name.data _ hbs2,
    replaceChars_flat Tok.tl r.last_name.data _ hbs3,
    substSimul_flat r _ hbs1]
  congr 1
  rw [List.map_map, List.map_map]
  apply List.map_congr_left
  intro b _
  cases b with
  | seg s => rfl
  | unk u => rfl
  | tok t => cases t <;> rfl

/-- C2 counterexample: with first_name = "\x7blast_name\x7d", the
sequential replacements of the code cascade (the \x7bfirst_name\x7d in the
body becomes \x7blast_name\x7d, which the third pass then replaces by
"Ng"), so the output differs from the claim's simultaneous description,
under which an occurrence of \x7bfirst_name\x7d is replaced by the
first_name field itself and nothing further. -/
theorem C2_counterexample :
    format_email_body "\x7bfirst_name\x7d"
        ⟨"a@x.com", "\x7blast_name\x7d", "Ng"⟩
      ≠ renderSpec "\x7bfirst_name\x7d"
        ⟨"a@x.com", "\x7blast_name\x7d", "Ng"⟩ := by
  decide

/-- C2 amended at a concrete input: brace-free fields, a template built of
segments, two recognized tokens and one unknown token; the sequential and
simultaneous renderings agree and equal the expected text. -/
theorem C2_witness :
    (∀ b ∈ bsC2, blkOk b = true) ∧
    format_email_body ⟨flatB bsC2⟩ rC2 = renderSpec ⟨flatB bsC2⟩ rC2 ∧
    format_email_body ⟨flatB bsC2⟩ rC2
      = "Dear Al Ng,\n\nThanks, Al! \x7bfoo\x7dal@x.com" :=
  ⟨by decide,
    C2_amended_sequential_rendering rC2 bsC2 (by decide) (by decide)
      (by decide) (by decide),
    by decide⟩

/-! ### Transport lemmas -/

/-- The send loop appends exactly the specified events, failure lines and
submissions, and never touches `quits`. -/
theorem sendLoop_spec (sr : Nat → Option String) (total : Nat) (cb : Bool)
    (subject tpl : String) :
    ∀ (rs : List Recipient) (i : Nat) (st : SendState),
      sendLoop sr total cb subject tpl i rs st
        = ⟨st.events ++ evList sr total cb i rs,
           st.failed ++ flList sr i rs,
           st.sendCalls ++ scList subject tpl rs,
           st.quits⟩ := by
  intro rs
  induction rs with
  | nil =>
    intro i st
    simp [sendLoop, evList, flList, scList]
  | cons r rs' ih =>
    intro i st
    obtain ⟨ev, fl, sc, q⟩ := st
    simp only [sendLoop]
    rw [ih]
    cases hsi : sr i with
    | none =>
      simp [attemptStep, hsi, evList, flList, scList, List.append_assoc]
    | some err =>
      simp [attemptStep, hsi, evList, flList, scList, List.append_assoc]

/-- `send_emails_smtp` under a successful connection: run the whole loop,
close the connection once, succeed iff no failure line was recorded. -/
theorem send_emails_smtp_conn_ok (envS : SmtpEnv) (rs : List Recipient)
    (subject tpl : String) (cb : Bool) (hS : envS.connectResult = none) :
    send_emails_smtp envS rs subject tpl cb
      = (⟨evList envS.sendResult rs.length cb 0 rs,
          flList envS.sendResult 0 rs,
          scList subject tpl rs, 1⟩,
         if (flList envS.sendResult 0 rs).isEmpty then Except.ok ()
         else Except.error (aggMsg (flList envS.sendResult 0 rs))) := by
  unfold send_emails_smtp
  rw [hS, sendLoop_spec]
  simp [initState]
  split <;> rfl

/-- `send_emails_ses` under a successful client construction: run the
whole loop (no close step), succeed iff no failure line was recorded. -/
theorem send_emails_ses_conn_ok (envA : SesEnv) (rs : List Recipient)
    (subject tpl : String) (cb : Bool)
    (h1 : envA.boto3Available = true) (h2 : envA.clientResult = none) :
    send_emails_ses envA rs subject tpl cb
      = (⟨evList envA.sendResult rs.length cb 0 rs,
          flList envA.sendResult 0 rs,
          scList subject tpl rs, 0⟩,
         if (flList envA.sendResult 0 rs).isEmpty then Except.ok ()
         else Except.error (aggMsg (flList envA.sendResult 0 rs))) := by
  unfold send_emails_ses
  rw [h1, h2, sendLoop_spec]
  simp [initState]
  split <;> rfl

/-- The (current, total) projections of the event stream: consecutive
indices starting at i+1, the fixed total on every event. -/
theorem evList_currents (sr : Nat → Option String) (total : Nat) :
    ∀ (rs : List Recipient) (i : Nat),
      (evList sr total true i rs).map (fun e => (e.1, e.2.1))
        = (List.range' (i + 1) rs.length).map (fun k => (k, total)) := by
  intro rs
  induction rs with
  | nil => intro i; rfl
  | cons r rs' ih =>
    intro i
    simp [evList, List.range'_succ, ih (i + 1)]

/-- The To-addresses of the submissions are the recipients' emails, in
order. -/
theorem scList_emails (subject tpl : String) (rs : List Recipient) :
    (scList subject tpl rs).map (fun c => c.1) = rs.map Recipient.email := by
  induction rs with
  | nil => rfl
  | cons r rs' ih => simp [scList] at ih ⊢

/-- C3: once the transport session is established, both transports emit
exactly one progress event per recipient attempt, in recipient order, the
i-th carrying current = i and total = n, regardless of per-recipient
outcomes; every recipient is attempted (one submission each, in order), so
a failure does not abort the loop. -/
theorem C3_one_event_per_attempt (envS : SmtpEnv) (envA : SesEnv)
    (rs : List Recipient) (subject tpl : String)
    (hS : envS.connectResult = none) (hA1 : envA.boto3Available = true)
    (hA2 : envA.clientResult = none) :
    ((send_emails_smtp envS rs subject tpl true).1.events).map
        (fun e => (e.1, e.2.1))
      = (List.range' 1 rs.length).map (fun k => (k, rs.length))
    ∧ ((send_emails_smtp envS rs subject tpl true).1.sendCalls).map
        (fun c => c.1) = rs.map Recipient.email
    ∧ ((send_emails_ses envA rs subject tpl true).1.events).map
        (fun e => (e.1, e.2.1))
      = (List.range' 1 rs.length).map (fun k => (k, rs.length))
    ∧ ((send_emails_ses envA rs subject tpl true).1.sendCalls).map
        (fun c => c.1) = rs.map Recipient.email := by
  rw [send_emails_smtp_conn_ok envS rs subject tpl true hS,
    send_emails_ses_conn_ok envA rs subject tpl true hA1 hA2]
  exact ⟨evList_currents envS.sendResult rs.length rs 0,
    scList_emails subject tpl rs,
    evList_currents envA.sendResult rs.length rs 0,
    scList_emails subject tpl rs⟩

/-- C3 at a concrete input: two recipients, the first send failing; both
transports still emit (1,2) then (2,2). -/
theorem C3_witness :
    envSW.connectResult = none ∧
    ((send_emails_smtp envSW rsW "S" "B" true).1.events).map
        (fun e => (e.1, e.2.1)) = [(1, 2), (2, 2)] ∧
    ((send_emails_ses envAW rsW "S" "B" true).1.events).map
        (fun e => (e.1, e.2.1)) = [(1, 2), (2, 2)] := by
  obtain ⟨h1, h2, h3, h4⟩ :=
    C3_one_event_per_attempt envSW envAW rsW "S" "B" rfl rfl rfl
  exact ⟨rfl, h1.trans (by decide), h3.trans (by decide)⟩

/-- C4: after the loop, each transport raises the aggregate error iff at
least one per-recipient failure was recorded; the message counts the
failures, lists the first five "email: reason" lines, and appends the
overflow count exactly when more than five failed; with zero failures the
operation succeeds. -/
theorem C4_aggregate_failure (envS : SmtpEnv) (envA : SesEnv)
    (rs : List Recipient) (subject tpl : String) (cb : Bool)
    (hS : envS.connectResult = none) (hA1 : envA.boto3Available = true)
    (hA2 : envA.clientResult = none) :
    ((send_emails_smtp envS rs subject tpl cb).2 = Except.ok ()
        ↔ flList envS.sendResult 0 rs = [])
    ∧ (flList envS.sendResult 0 rs ≠ [] →
        (send_emails_smtp envS rs subject tpl cb).2
          = Except.error ("Failed to send to "
              ++ toString (flList envS.sendResult 0 rs).length
              ++ " recipients:\n"
              ++ String.intercalate "\n" ((flList envS.sendResult 0 rs).take 5)
              ++ (if 5 < (flList envS.sendResult 0 rs).length then
                    "\n... and "
                      ++ toString ((flList envS.sendResult 0 rs).length - 5)
                      ++ " more"
                  else "")))
    ∧ ((send_emails_ses envA rs subject tpl cb).2 = Except.ok ()
        ↔ flList envA.sendResult 0 rs = [])
    ∧ (flList envA.sendResult 0 rs ≠ [] →
        (send_emails_ses envA rs subject tpl cb).2
          = Except.error ("Failed to send to "
              ++ toString (flList envA.sendResult 0 rs).length
              ++ " recipients:\n"
              ++ String.intercalate "\n" ((flList envA.sendResult 0 rs).take 5)
              ++ (if 5 < (flList envA.sendResult 0 rs).length then
                    "\n... and "
                      ++ toString ((flList envA.sendResult 0 rs).length - 5)
                      ++ " more"
                  else ""))) := by
  rw [send_emails_smtp_conn_ok envS rs subject tpl cb hS,
    send_emails_ses_conn_ok envA rs subject tpl cb hA1 hA2]
  refine ⟨?_, ?_, ?_, ?_⟩
  · by_cases hfl : flList envS.sendResult 0 rs = [] <;> simp [hfl]
  · intro hne; simp [hne, aggMsg]
  · by_cases hfl : flList envA.sendResult 0 rs = [] <;> simp [hfl]
  · intro hne; simp [hne, aggMsg]

/-- C4 at a concrete input: six failing recipients; the aggregate error
lists five lines and reports "... and 1 more", on both transports. -/
theorem C4_witness :
    flList envFailS.sendResult 0 rs6 ≠ [] ∧
    (send_emails_smtp envFailS rs6 "S" "B" true).2
      = Except.error ("Failed to send to 6 recipients:\n"
          ++ "u1@x.com: smtp down\nu2@x.com: smtp down\nu3@x.com: smtp down\nu4@x.com: smtp down\nu5@x.com: smtp down"
          ++ "\n... and 1 more") ∧
    (send_emails_ses envFailA rs6 "S" "B" true).2
      = Except.error ("Failed to send to 6 recipients:\n"
          ++ "u1@x.com: rejected\nu2@x.com: rejected\nu3@x.com: rejected\nu4@x.com: rejected\nu5@x.com: rejected"
          ++ "\n... and 1 more") := by
  obtain ⟨hs1, hs2, ha1, ha2⟩ :=
    C4_aggregate_failure envFailS envFailA rs6 "S" "B" true rfl rfl rfl
  exact ⟨by decide,
    (hs2 (by decide)).trans (congrArg Except.error (by decide)),
    (ha2 (by decide)).trans (congrArg Except.error (by decide))⟩

/-- C5: a failed SMTP connection (connect/starttls/login) or a failed SES
client construction aborts the dispatch with the connection-level error
before any recipient is attempted: no progress event is emitted and no
submission is made. -/
theorem C5_no_partial_sends (envS : SmtpEnv) (envA : SesEnv)
    (rs : List Recipient) (subject tpl : String) (cb : Bool) (eS eA : String)
    (hS : envS.connectResult = some eS)
    (hA1 : envA.boto3Available = true) (hA2 : envA.clientResult = some eA) :
    send_emails_smtp envS rs subject tpl cb
      = (initState, Except.error ("Failed to connect to SMTP server: " ++ eS))
    ∧ send_emails_ses envA rs subject tpl cb
      = (initState, Except.error ("Failed to create AWS SES client: " ++ eA))
    ∧ initState.events = [] ∧ initState.sendCalls = [] := by
  refine ⟨?_, ?_, rfl, rfl⟩
  · unfold send_emails_smtp
    rw [hS]
  · unfold send_emails_ses
    rw [hA1, hA2]
    simp

/-- C5 at a concrete input: a refused SMTP connection and a failing SES
client construction both abort with the connection error and an untouched
state. -/
theorem C5_witness :
    envConnFail.connectResult = some "refused" ∧
    send_emails_smtp envConnFail rsW "S" "B" true
      = (initState, Except.error "Failed to connect to SMTP server: refused") ∧
    send_emails_ses envClientFail rsW "S" "B" true
      = (initState,
          Except.error "Failed to create AWS SES client: bad region") := by
  obtain ⟨h1, h2, _, _⟩ :=
    C5_no_partial_sends envConnFail envClientFail rsW "S" "B" true
      "refused" "bad region" rfl rfl rfl
  exact ⟨rfl, h1, h2⟩

/-- C8: the dispatcher invokes the SES transport exactly when the provider
tag equals "ses" and the SMTP transport in every other case (unset or
unrecognized included), returning the chosen transport's result verbatim. -/
theorem C8_provider_selection (envS : SmtpEnv) (envA : SesEnv)
    (rs : List Recipient) (subject tpl : String) (cb : Bool)
    (settings : Settings) :
    send_emails envS envA rs subject tpl settings cb
      = if settings.provider = some "ses" then
          send_emails_ses envA rs subject tpl cb
        else send_emails_smtp envS rs subject tpl cb := by
  obtain ⟨p⟩ := settings
  cases p with
  | none =>
    have hne : (("smtp" : String) == "ses") = false := by decide
    simp [send_emails, hne]
  | some s =>
    by_cases hs : s = "ses"
    · subst hs; simp [send_emails]
    · simp [send_emails, hs]

/-- C9: whenever the connection is established, the SMTP transport closes
it exactly once on every exit path of the send loop — whether all sends
succeed, some fail, or all fail — before the aggregate result is
produced. -/
theorem C9_quit_always (envS : SmtpEnv) (rs : List Recipient)
    (subject tpl : String) (cb : Bool) (hS : envS.connectResult = none) :
    ((send_emails_smtp envS rs subject tpl cb).1).quits = 1 := by
  rw [send_emails_smtp_conn_ok envS rs subject tpl cb hS]

/-- C9 at a concrete input: even when every send fails and the aggregate
error is raised, the connection was closed exactly once. -/
theorem C9_witness :
    envFailS.connectResult = none ∧
    ((send_emails_smtp envFailS rs6 "S" "B" true).1).quits = 1 :=
  ⟨rfl, C9_quit_always envFailS rs6 "S" "B" true rfl⟩

end MassEmail
